import Mathlib

/-!
Verification development for the procedural-content and collision core of
the `typey_birb` game (Rust sources: `src/luck.rs`, `src/cylinder.rs`,
`src/ground.rs`, `src/util.rs`, `src/main.rs`).

Modelling conventions:
* `f32` values are modelled as exact rationals (`ℚ`); `u32`/`usize` as `ℕ`.
* The `rand` RNG is modelled by an explicit oracle: each call to `next`
  receives the data the RNG would produce (a replacement bag for the cyclic
  reshuffle, a fair coin, and a sampler for `gen_range`).  `gen_range` on an
  empty range panics in `rand`, so it is modelled as returning `none` there.
* Rust panics / `unwrap` failures are modelled with `Option` (`none` = panic)
  or with an explicit `panic` constructor.
-/

namespace TypeyBirb

/-! ## `src/luck.rs` — the gap sequencer (`NextGapBag`) -/

/-- The five gap magnitude categories (`enum NextGapKind` in `luck.rs`). -/
inductive NextGapKind where
  | VerySmall
  | Small
  | Medium
  | Large
  | VeryLarge
deriving DecidableEq, Repr

/-- `NextGapKind::to_range` from `luck.rs`: the fractional sub-range
(start, end) for each category. -/
def NextGapKind.toRange : NextGapKind → ℚ × ℚ
  | .VerySmall => (0.1, 0.2)
  | .Small => (0.2, 0.3)
  | .Medium => (0.3, 0.4)
  | .Large => (0.4, 0.6)
  | .VeryLarge => (0.6, 1.0)

/-- The state of `NextGapBag` (without the RNG, which is oracle-passed):
the configured range, the previous value, the bag cursor and contents. -/
structure BagState where
  rangeStart : ℚ
  rangeEnd : ℚ
  previousValue : ℚ
  index : ℕ
  contents : List NextGapKind
deriving DecidableEq, Repr

/-- The randomness one call of `NextGapBag::next` may consume:
`shuffle` is the bag produced by the in-place cyclic reshuffle (a
permutation of the current contents), `coin` is `rng.gen::<bool>()`,
and `sample lo hi` is `rng.gen_range(lo..hi)`. -/
structure RandStep where
  shuffle : List NextGapKind
  coin : Bool
  sample : ℚ → ℚ → ℚ

/-- `rand`'s `gen_range(lo..hi)` on `f32`: panics (`none`) when the range is
empty, otherwise yields the sampled value. -/
def genRange (r : RandStep) (lo hi : ℚ) : Option ℚ :=
  if lo < hi then some (r.sample lo hi) else none

/-- A sampler is valid when it returns a value in `[lo, hi)` whenever
`lo < hi` — the contract of `rand`'s uniform `gen_range` on `f32`. -/
def ValidSample (r : RandStep) : Prop :=
  ∀ lo hi : ℚ, lo < hi → lo ≤ r.sample lo hi ∧ r.sample lo hi < hi

/-- The value computation inside `NextGapBag::next` for a fixed drawn
`kind`: build the scaled sub-range, the clamped `down` and `up` candidate
intervals, and draw the value.  `Range::<f32>::is_empty` is `!(start < end)`;
`gen_range` (via `genRange`) is reached only for non-empty intervals. -/
def nextVal (r : RandStep) (kind : NextGapKind) (s : BagState) : Option ℚ :=
  let kindRange := kind.toRange
  let magnitude := s.rangeEnd - s.rangeStart
  let scaledStart := kindRange.1 * magnitude
  let scaledEnd := kindRange.2 * magnitude
  let downMin := max (s.previousValue - scaledEnd) s.rangeStart
  let downMax := max (s.previousValue - scaledStart) s.rangeStart
  let upMin := min (s.previousValue + scaledStart) s.rangeEnd
  let upMax := min (s.previousValue + scaledEnd) s.rangeEnd
  if upMin < upMax then
    if downMin < downMax then
      if r.coin then genRange r upMin upMax else genRange r downMin downMax
    else
      genRange r upMin upMax
  else
    if downMin < downMax then
      genRange r downMin downMax
    else
      some (if r.coin then upMin else downMin)

/-- `NextGapBag::next` from `luck.rs` (the `Iterator` impl), with the RNG
draws supplied by `r`.  Returns the produced value and the updated state;
`none` models a panic (the `unwrap` on `contents.get`, or `gen_range` on an
empty range — neither is reachable from a well-formed bag). -/
def nextGap (r : RandStep) (s : BagState) : Option (ℚ × BagState) :=
  let (idx, contents) :=
    if s.contents.length ≤ s.index then (0, r.shuffle) else (s.index, s.contents)
  match contents.get? idx with
  | none => none
  | some kind =>
    (nextVal r kind s).map fun val =>
      (val, { s with previousValue := val, index := idx + 1, contents := contents })

/-- Iterated calls to `NextGapBag::next`, one `RandStep` per call;
collects the returned values. -/
def runBag (steps : List RandStep) (s : BagState) : Option (List ℚ × BagState) :=
  match steps with
  | [] => some ([], s)
  | r :: rest =>
    (nextGap r s).bind fun p =>
      (runBag rest p.2).map fun q => (p.1 :: q.1, q.2)

/-- Membership in the half-open interval `[lo, hi)` of the spec's
range-containment property. -/
def inRangeHO (lo hi v : ℚ) : Prop := lo ≤ v ∧ v < hi

/-- Each magnitude category's fractional range has `0 < start < end ≤ 1`. -/
theorem toRange_pos (k : NextGapKind) :
    0 < k.toRange.1 ∧ k.toRange.1 < k.toRange.2 ∧ k.toRange.2 ≤ 1 := by
  cases k <;> simp [NextGapKind.toRange] <;> norm_num

/-- Single-call containment: a value produced by `nextVal` from a state whose
previous value lies in the closed configured range again lies in the closed
range `[rangeStart, rangeEnd]`. -/
theorem nextVal_mem_closed (r : RandStep) (kind : NextGapKind) (s : BagState)
    (hr : ValidSample r) (hlt : s.rangeStart < s.rangeEnd)
    (hlo : s.rangeStart ≤ s.previousValue) (hhi : s.previousValue ≤ s.rangeEnd)
    (v : ℚ) (hv : nextVal r kind s = some v) :
    s.rangeStart ≤ v ∧ v ≤ s.rangeEnd := by
  obtain ⟨hk0, hk1, _⟩ := toRange_pos kind
  have hm : 0 < s.rangeEnd - s.rangeStart := by linarith
  have hss : 0 < kind.toRange.1 * (s.rangeEnd - s.rangeStart) := mul_pos hk0 hm
  have hse : kind.toRange.1 * (s.rangeEnd - s.rangeStart)
      < kind.toRange.2 * (s.rangeEnd - s.rangeStart) :=
    mul_lt_mul_of_pos_right hk1 hm
  simp only [nextVal, genRange] at hv
  set ss := kind.toRange.1 * (s.rangeEnd - s.rangeStart) with hssdef
  set se := kind.toRange.2 * (s.rangeEnd - s.rangeStart) with hsedef
  set dmin := max (s.previousValue - se) s.rangeStart with hdmin
  set dmax := max (s.previousValue - ss) s.rangeStart with hdmax
  set umin := min (s.previousValue + ss) s.rangeEnd with humin
  set umax := min (s.previousValue + se) s.rangeEnd with humax
  have humin_lo : s.rangeStart ≤ umin := by
    rw [humin]; exact le_min (by linarith) (le_of_lt hlt)
  have humin_hi : umin ≤ s.rangeEnd := by
    rw [humin]; exact min_le_right _ _
  have humax_hi : umax ≤ s.rangeEnd := by
    rw [humax]; exact min_le_right _ _
  have hdmin_lo : s.rangeStart ≤ dmin := by
    rw [hdmin]; exact le_max_right _ _
  have hdmin_hi : dmin ≤ s.rangeEnd := by
    rw [hdmin]; exact max_le (by linarith) (le_of_lt hlt)
  have hdmax_hi : dmax ≤ s.rangeEnd := by
    rw [hdmax]; exact max_le (by linarith) (le_of_lt hlt)
  have hup : ∀ w : ℚ, umin < umax → r.sample umin umax = w →
      s.rangeStart ≤ w ∧ w ≤ s.rangeEnd := by
    intro w hne hw
    obtain ⟨ha, hb⟩ := hr umin umax hne
    rw [hw] at ha hb
    exact ⟨le_trans humin_lo ha, le_of_lt (lt_of_lt_of_le hb humax_hi)⟩
  have hdown : ∀ w : ℚ, dmin < dmax → r.sample dmin dmax = w →
      s.rangeStart ≤ w ∧ w ≤ s.rangeEnd := by
    intro w hne hw
    obtain ⟨ha, hb⟩ := hr dmin dmax hne
    rw [hw] at ha hb
    exact ⟨le_trans hdmin_lo ha, le_trans (le_of_lt hb) hdmax_hi⟩
  split_ifs at hv <;> injection hv with hv
  · exact hup v (by assumption) hv
  · exact hdown v (by assumption) hv
  · exact hup v (by assumption) hv
  · exact hdown v (by assumption) hv
  · exact hv ▸ ⟨humin_lo, humin_hi⟩
  · exact hv ▸ ⟨hdmin_lo, hdmin_hi⟩

/-- `nextGap` preserves the configured range and stores the produced value as
the new previous value. -/
theorem nextGap_state (r : RandStep) (s : BagState) (v : ℚ) (s' : BagState)
    (h : nextGap r s = some (v, s')) :
    s'.rangeStart = s.rangeStart ∧ s'.rangeEnd = s.rangeEnd ∧
      s'.previousValue = v := by
  simp only [nextGap] at h
  split at h
  · exact absurd h (by simp)
  · simp only [Option.map_eq_some'] at h
    obtain ⟨val, _, hval⟩ := h
    cases hval
    exact ⟨rfl, rfl, rfl⟩

/-- `nextGap` produces values via `nextVal`. -/
theorem nextGap_val (r : RandStep) (s : BagState) (v : ℚ) (s' : BagState)
    (h : nextGap r s = some (v, s')) :
    ∃ kind, nextVal r kind s = some v := by
  simp only [nextGap] at h
  split at h
  · exact absurd h (by simp)
  · rename_i kind _
    simp only [Option.map_eq_some'] at h
    obtain ⟨val, hval, heq⟩ := h
    cases heq
    exact ⟨kind, hval⟩

/-- **C1 (amended)** — Closed-range containment: for every sequence of
`GapSequencer.next()` calls with valid uniform samplers, starting from a
state whose previous value lies in the closed configured range
(`rangeStart < rangeEnd`), every returned value lies in the **closed**
interval `[range.min, range.max]`.  (The half-open interval of the original
claim fails: in the degenerate both-empty case the boundary value
`range.max` itself can be returned, see `gap_value_can_equal_range_end`.) -/
theorem gap_values_in_closed_range (steps : List RandStep) (s : BagState)
    (hvalid : ∀ r ∈ steps, ValidSample r)
    (hlt : s.rangeStart < s.rangeEnd)
    (hlo : s.rangeStart ≤ s.previousValue) (hhi : s.previousValue ≤ s.rangeEnd)
    (vs : List ℚ) (s' : BagState) (hrun : runBag steps s = some (vs, s')) :
    ∀ v ∈ vs, s.rangeStart ≤ v ∧ v ≤ s.rangeEnd := by
  induction steps generalizing s vs with
  | nil =>
    simp only [runBag, Option.some_inj] at hrun
    cases hrun.symm
    intro v hv
    simp at hv
  | cons r rest ih =>
    simp only [runBag, Option.bind_eq_some] at hrun
    obtain ⟨⟨v1, s1⟩, hstep, hrest⟩ := hrun
    simp only [Option.map_eq_some'] at hrest
    obtain ⟨⟨vs1, s2⟩, hrun1, heq⟩ := hrest
    cases heq
    obtain ⟨kind, hval⟩ := nextGap_val r s v1 s1 hstep
    have hmem := nextVal_mem_closed r kind s (hvalid r (by simp)) hlt hlo hhi v1 hval
    obtain ⟨hrs, hre, hprev⟩ := nextGap_state r s v1 s1 hstep
    intro v hv
    rcases List.mem_cons.mp hv with hveq | hvmem
    · cases hveq
      exact hmem
    · have := ih (fun r hr => hvalid r (by simp [hr])) (s := s1)
        (by rw [hrs, hre]; exact hlt)
        (by rw [hrs, hprev]; exact hmem.1)
        (by rw [hre, hprev]; exact hmem.2) vs1 hrun1 v hvmem
      rwa [hrs, hre] at this

/-- Witness for `gap_values_in_closed_range`: one call with a `Medium` token
from previous value `3` in range `[1/2, 47/10)` returns `213/50`, which lies
in the closed range. -/
theorem gap_values_in_closed_range_witness :
    (1 : ℚ)/2 ≤ 213/50 ∧ (213/50 : ℚ) ≤ 47/10 := by
  have h := gap_values_in_closed_range
    [{ shuffle := [], coin := true, sample := fun lo _ => lo }]
    { rangeStart := 1/2, rangeEnd := 47/10, previousValue := 3, index := 0,
      contents := [NextGapKind.Medium] }
    (by
      intro r hr
      simp only [List.mem_singleton] at hr
      subst hr
      intro lo hi hlt
      exact ⟨le_refl lo, hlt⟩)
    (by norm_num) (by norm_num) (by norm_num)
    [213/50]
    { rangeStart := 1/2, rangeEnd := 47/10, previousValue := 213/50, index := 1,
      contents := [NextGapKind.Medium] }
    (by norm_num [runBag, nextGap, nextVal, genRange, NextGapKind.toRange])
  exact h (213/50) (by simp)

/-- A freshly constructed bag for the game's actual configuration
(`range = [0.5, 4.7)`, `initial_value = 3`): a legal shuffle of the 8-token
multiset whose first two tokens satisfy the ease-in condition. -/
def cexBag0 : BagState :=
  { rangeStart := 1/2, rangeEnd := 47/10, previousValue := 3, index := 0,
    contents := [NextGapKind.Small, NextGapKind.Small, NextGapKind.VeryLarge,
      NextGapKind.VerySmall, NextGapKind.Medium, NextGapKind.Medium,
      NextGapKind.Large, NextGapKind.Large] }

/-- First call's randomness: the coin picks `up`, the uniform sample lands
on `4` (inside the requested interval whenever possible, else its lower
bound — a `ValidSample`). -/
def cexStep1 : RandStep :=
  { shuffle := [], coin := true,
    sample := fun lo hi => if lo ≤ 4 ∧ 4 < hi then 4 else lo }

/-- Second call's randomness: the sample lands on `2.8 = 14/5`. -/
def cexStep2 : RandStep :=
  { shuffle := [], coin := false,
    sample := fun lo hi => if lo ≤ 14/5 ∧ 14/5 < hi then 14/5 else lo }

/-- Third call's randomness: the coin picks `up` (only the coin matters:
both candidate intervals are empty on this call). -/
def cexStep3 : RandStep :=
  { shuffle := [], coin := true, sample := fun lo _ => lo }

/-- **C1 (counterexample)** — the original half-open containment fails on a
reachable run: starting from a freshly constructed bag for the game's
configuration (`[0.5, 4.7)`, initial value `3`), three calls with valid
uniform samples return `4`, then `2.8`, and then — with `previous = 2.8`
and a `VeryLarge` token making both the `up` and `down` candidate intervals
empty — the degenerate boundary value `up.start = 4.7 = range.max`, which
is **not** in the half-open interval `[0.5, 4.7)`. -/
theorem gap_value_can_equal_range_end :
    ValidSample cexStep1 ∧ ValidSample cexStep2 ∧ ValidSample cexStep3 ∧
    (runBag [cexStep1, cexStep2, cexStep3] cexBag0).map Prod.fst
      = some [4, 14/5, 47/10] ∧
    ¬ inRangeHO (1/2) (47/10) (47/10) := by
  refine ⟨?_, ?_, ?_, ?_, ?_⟩
  · intro lo hi h
    simp only [cexStep1]
    split_ifs with hc
    · exact ⟨hc.1, hc.2⟩
    · exact ⟨le_refl lo, h⟩
  · intro lo hi h
    simp only [cexStep2]
    split_ifs with hc
    · exact ⟨hc.1, hc.2⟩
    · exact ⟨le_refl lo, h⟩
  · intro lo hi h
    exact ⟨le_refl lo, h⟩
  · norm_num [runBag, nextGap, nextVal, genRange, NextGapKind.toRange,
      cexBag0, cexStep1, cexStep2, cexStep3]
  · intro h
    exact absurd h.2 (by norm_num)

/-- **C9** — totality of `GapSequencer.next()`: from any state whose bag holds
8 tokens, with the cyclic reshuffle a permutation of the contents, `next`
returns `Some` value and never panics: the uniform-sampling call is only
reached with a non-empty interval, and the bag read never fails because the
cursor is reset when it reaches the bag length. -/
theorem next_total (r : RandStep) (s : BagState)
    (hlen : s.contents.length = 8) (hperm : r.shuffle.Perm s.contents) :
    (nextGap r s).isSome := by
  have hval : ∀ kind, (nextVal r kind s).isSome := by
    intro kind
    simp only [nextVal, genRange]
    split_ifs <;> simp
  have hshuf : r.shuffle.length = 8 := hperm.length_eq.trans hlen
  simp only [nextGap]
  split_ifs with hidx
  · have : r.shuffle.get? 0 = some (r.shuffle.get ⟨0, by omega⟩) :=
      List.get?_eq_get (by omega)
    rw [this]
    simpa using hval _
  · push_neg at hidx
    have : s.contents.get? s.index = some (s.contents.get ⟨s.index, by omega⟩) :=
      List.get?_eq_get (by omega)
    rw [this]
    simpa using hval _

/-- Witness for `next_total` at a concrete 8-token bag state. -/
theorem next_total_witness :
    (nextGap { shuffle := [NextGapKind.VerySmall, NextGapKind.Small,
                 NextGapKind.Small, NextGapKind.Medium, NextGapKind.Medium,
                 NextGapKind.Large, NextGapKind.Large, NextGapKind.VeryLarge],
               coin := false, sample := fun lo _ => lo }
      { rangeStart := 1/2, rangeEnd := 47/10, previousValue := 3, index := 5,
        contents := [NextGapKind.VerySmall, NextGapKind.Small,
          NextGapKind.Small, NextGapKind.Medium, NextGapKind.Medium,
          NextGapKind.Large, NextGapKind.Large,
          NextGapKind.VeryLarge] }).isSome :=
  next_total _ _ (by simp) (List.Perm.refl _)

/-! ### `NextGapBag::new` — construction with the ease-in reshuffle loop -/

/-- The initial bag contents of `NextGapBag::new` (before any shuffle):
1×VerySmall, 2×Small, 2×Medium, 2×Large, 1×VeryLarge. -/
def initialContents : List NextGapKind :=
  [NextGapKind.VerySmall, NextGapKind.Small, NextGapKind.Small,
   NextGapKind.Medium, NextGapKind.Medium, NextGapKind.Large,
   NextGapKind.Large, NextGapKind.VeryLarge]

/-- The `matches!(k, Large | VeryLarge)` test of the ease-in loop. -/
def NextGapKind.isBig : NextGapKind → Bool
  | .Large => true
  | .VeryLarge => true
  | _ => false

/-- The ease-in condition checked by `NextGapBag::new`'s `while` loop:
true when any of the first two tokens is `Large` or `VeryLarge`. -/
def easeInViolated (l : List NextGapKind) : Bool :=
  (l.take 2).any NextGapKind.isBig

/-- The `while` reshuffle loop of `NextGapBag::new`, with the successive
shuffle results supplied by the oracle `shuffles` (the `i`-th reshuffle
yields `shuffles i`; `shuffles 0` is the initial shuffle) and bounded by
`fuel` extra reshuffles (`none` models non-termination within the bound). -/
def easeShuffleLoop (shuffles : ℕ → List NextGapKind) : ℕ → ℕ → Option (List NextGapKind)
  | i, 0 => if easeInViolated (shuffles i) then none else some (shuffles i)
  | i, fuel + 1 =>
    if easeInViolated (shuffles i) then easeShuffleLoop shuffles (i + 1) fuel
    else some (shuffles i)

/-- `NextGapBag::new(range, initial_value)` from `luck.rs`: shuffle the
initial contents, reshuffle while the ease-in condition is violated, then
build the state with cursor `0` and `previous_value = initial_value`. -/
def newBag (shuffles : ℕ → List NextGapKind) (fuel : ℕ)
    (rangeStart rangeEnd initialValue : ℚ) : Option BagState :=
  (easeShuffleLoop shuffles 0 fuel).map fun c =>
    { rangeStart := rangeStart, rangeEnd := rangeEnd,
      previousValue := initialValue, index := 0, contents := c }

/-- The reshuffle loop only ever returns contents satisfying the ease-in
condition. -/
theorem easeShuffleLoop_ok (shuffles : ℕ → List NextGapKind) :
    ∀ i fuel c, easeShuffleLoop shuffles i fuel = some c →
      easeInViolated c = false := by
  intro i fuel
  induction fuel generalizing i with
  | zero =>
    intro c hc
    simp only [easeShuffleLoop] at hc
    split_ifs at hc with h
    · injection hc with hc
      subst hc
      exact Bool.eq_false_iff.mpr h
  | succ fuel ih =>
    intro c hc
    simp only [easeShuffleLoop] at hc
    split_ifs at hc with h
    · exact ih (i + 1) c hc
    · injection hc with hc
      subst hc
      exact Bool.eq_false_iff.mpr h

/-- **C10** — ease-in at construction: whenever `NextGapBag::new` completes,
*neither* of the first two tokens of the resulting bag is `Large` or
`VeryLarge` (strictly stronger than "not both"): the construction loop
reshuffles while *any* of the first two tokens is big. -/
theorem new_bag_ease_in (shuffles : ℕ → List NextGapKind) (fuel : ℕ)
    (rangeStart rangeEnd initialValue : ℚ) (b : BagState)
    (h : newBag shuffles fuel rangeStart rangeEnd initialValue = some b) :
    ∀ k ∈ b.contents.take 2, k ≠ NextGapKind.Large ∧ k ≠ NextGapKind.VeryLarge := by
  simp only [newBag, Option.map_eq_some'] at h
  obtain ⟨c, hc, hb⟩ := h
  cases hb
  have hok := easeShuffleLoop_ok shuffles 0 fuel c hc
  intro k hk
  simp only [easeInViolated, List.any_eq_false] at hok
  have := hok k hk
  cases k <;> simp_all [NextGapKind.isBig]

/-- Witness for `new_bag_ease_in`: constructing with the identity shuffle of
the initial contents (whose first two tokens are `VerySmall, Small`)
succeeds immediately, and its first token is not big. -/
theorem new_bag_ease_in_witness :
    NextGapKind.VerySmall ≠ NextGapKind.Large ∧
    NextGapKind.VerySmall ≠ NextGapKind.VeryLarge :=
  new_bag_ease_in (fun _ => initialContents) 0 (1/2) (47/10) 3
    { rangeStart := 1/2, rangeEnd := 47/10, previousValue := 3, index := 0,
      contents := initialContents }
    (by simp [newBag, easeShuffleLoop, easeInViolated, initialContents,
      NextGapKind.isBig])
    NextGapKind.VerySmall (by simp [initialContents])

/-! ## `src/cylinder.rs` — the cylinder mesh builder (`From<Cylinder> for Mesh`) -/

/-- `struct Cylinder` from `cylinder.rs`. -/
structure Cylinder where
  radius : ℚ
  height : ℚ
  resolution : ℕ
  segments : ℕ

/-- The mesh buffers the builder produces (positions/normals/uvs/indices of
a triangle list). -/
structure MeshData where
  positions : List (ℚ × ℚ × ℚ)
  normals : List (ℚ × ℚ × ℚ)
  uvs : List (ℚ × ℚ)
  indices : List ℕ

/-- Ring ("barrel") vertices of the cylinder: for each of `segments + 1`
rings, `resolution + 1` vertices (the last duplicates the first at the UV
seam).  `sincos θ` models `f32::sin_cos` (returning `(sin θ, cos θ)`) and
`tau` models `std::f32::consts::TAU`. -/
def cylRingPositions (sincos : ℚ → ℚ × ℚ) (tau : ℚ) (c : Cylinder) :
    List (ℚ × ℚ × ℚ) :=
  (List.range (c.segments + 1)).flatMap fun (ring : ℕ) =>
    (List.range (c.resolution + 1)).map fun (segment : ℕ) =>
      let y := -c.height / 2 + (ring : ℚ) * (c.height / (c.segments : ℚ))
      let sc := sincos ((segment : ℚ) * (tau / (c.resolution : ℚ)))
      (c.radius * sc.2, y, c.radius * sc.1)

/-- Barrel-skin indices: two triangles per quad between adjacent rings. -/
def cylBarrelIndices (c : Cylinder) : List ℕ :=
  (List.range c.segments).flatMap fun i =>
    let ring := i * (c.resolution + 1)
    let nextRing := (i + 1) * (c.resolution + 1)
    (List.range c.resolution).flatMap fun j =>
      [ring + j, nextRing + j, ring + j + 1,
       nextRing + j, nextRing + j + 1, ring + j + 1]

/-- Cap vertices (`build_cap` in `cylinder.rs`): `resolution` vertices on
the top (`top = true`) or bottom circle. -/
def cylCapPositions (sincos : ℚ → ℚ × ℚ) (tau : ℚ) (c : Cylinder)
    (top : Bool) : List (ℚ × ℚ × ℚ) :=
  (List.range c.resolution).map fun (i : ℕ) =>
    let y := if top then c.height / 2 else c.height / -2
    let sc := sincos ((i : ℚ) * (tau / (c.resolution : ℚ)))
    (sc.2 * c.radius, y, sc.1 * c.radius)

/-- Cap fan indices (`for i in 1..(resolution - 1)` in `build_cap`), with
winding `(w0, w1) = (1, 0)` for the top cap and `(0, 1)` for the bottom.
`resolution - 2` is ℕ-truncated subtraction, matching the Rust loop bound
for the in-contract case `resolution > 2`. -/
def cylCapIndices (c : Cylinder) (offset w0 w1 : ℕ) : List ℕ :=
  (List.range (c.resolution - 2)).flatMap fun k =>
    [offset, offset + (k + 1) + w0, offset + (k + 1) + w1]

/-- The body of `impl From<Cylinder> for Mesh` (after the debug assertions):
ring vertices and barrel skin, then the top and bottom fan caps appended in
order (each cap's index `offset` is the number of positions already
emitted).  Normals and uvs mirror the source; the conformance counts are
about `positions` and `indices`. -/
def buildCylinder (sincos : ℚ → ℚ × ℚ) (tau : ℚ) (c : Cylinder) : MeshData :=
  let topOffset := (c.segments + 1) * (c.resolution + 1)
  let bottomOffset := topOffset + c.resolution
  { positions := cylRingPositions sincos tau c
      ++ cylCapPositions sincos tau c true ++ cylCapPositions sincos tau c false
    normals :=
      ((List.range (c.segments + 1)).flatMap fun _ =>
        (List.range (c.resolution + 1)).map fun (segment : ℕ) =>
          let sc := sincos ((segment : ℚ) * (tau / (c.resolution : ℚ)))
          (sc.2, (0 : ℚ), sc.1))
      ++ ((List.range c.resolution).map fun _ => ((0 : ℚ), (1 : ℚ), (0 : ℚ)))
      ++ ((List.range c.resolution).map fun _ => ((0 : ℚ), (-1 : ℚ), (0 : ℚ)))
    uvs :=
      ((List.range (c.segments + 1)).flatMap fun (ring : ℕ) =>
        (List.range (c.resolution + 1)).map fun (segment : ℕ) =>
          ((segment : ℚ) / (c.resolution : ℚ), (ring : ℚ) / (c.segments : ℚ)))
      ++ ((List.range c.resolution).map fun (i : ℕ) =>
          let sc := sincos ((i : ℚ) * (tau / (c.resolution : ℚ)))
          (0.5 * (sc.2 + 1), 1 - 0.5 * (sc.1 + 1)))
      ++ ((List.range c.resolution).map fun (i : ℕ) =>
          let sc := sincos ((i : ℚ) * (tau / (c.resolution : ℚ)))
          (0.5 * (sc.2 + 1), 1 - 0.5 * (sc.1 + 1)))
    indices := cylBarrelIndices c ++ cylCapIndices c topOffset 1 0
      ++ cylCapIndices c bottomOffset 0 1 }

/-- The four `debug_assert!` preconditions of the builder. -/
def cylinderPrecond (c : Cylinder) : Prop :=
  0 < c.radius ∧ 0 < c.height ∧ 2 < c.resolution ∧ 0 < c.segments

instance (c : Cylinder) : Decidable (cylinderPrecond c) := by
  unfold cylinderPrecond; infer_instance

/-- `From<Cylinder> for Mesh` including the `debug_assert!` guards:
`debug_assert!` panics only when debug assertions are compiled in
(`debugAssertions = true`); in release builds it is compiled out and the
builder proceeds unconditionally. -/
def cylinderToMesh (debugAssertions : Bool) (sincos : ℚ → ℚ × ℚ) (tau : ℚ)
    (c : Cylinder) : Option MeshData :=
  if debugAssertions ∧ ¬ cylinderPrecond c then none
  else some (buildCylinder sincos tau c)

/-- Length of a `range`-flatMap whose blocks all have the same length. -/
theorem length_range_flatMap {α : Type} (n c : ℕ) (f : ℕ → List α)
    (h : ∀ i, (f i).length = c) :
    ((List.range n).flatMap f).length = n * c := by
  induction n with
  | zero => simp
  | succ n ih =>
    rw [List.range_succ, List.flatMap_append]
    simp only [List.length_append, ih, List.flatMap_cons, List.flatMap_nil,
      List.append_nil, h n]
    ring

/-- The ring slice holds `(segments+1)·(resolution+1)` vertices. -/
theorem cylRingPositions_length (sincos : ℚ → ℚ × ℚ) (tau : ℚ) (c : Cylinder) :
    (cylRingPositions sincos tau c).length
      = (c.segments + 1) * (c.resolution + 1) :=
  length_range_flatMap _ _ _ (fun i => by
    rw [List.length_map, List.length_range])

/-- Each cap holds `resolution` vertices. -/
theorem cylCapPositions_length (sincos : ℚ → ℚ × ℚ) (tau : ℚ) (c : Cylinder)
    (top : Bool) :
    (cylCapPositions sincos tau c top).length = c.resolution := by
  rw [cylCapPositions, List.length_map, List.length_range]

/-- The barrel skin holds `6·segments·resolution` indices. -/
theorem cylBarrelIndices_length (c : Cylinder) :
    (cylBarrelIndices c).length = c.segments * (c.resolution * 6) :=
  length_range_flatMap _ _ _ (fun i =>
    length_range_flatMap _ _ _ (fun j => by simp))

/-- Each cap fan holds `3·(resolution − 2)` indices. -/
theorem cylCapIndices_length (c : Cylinder) (offset w0 w1 : ℕ) :
    (cylCapIndices c offset w0 w1).length = (c.resolution - 2) * 3 :=
  length_range_flatMap _ _ _ (fun k => by simp)

/-- **C3** — exact mesh counts: for every cylinder with positive radius and
height, `resolution > 2` and `segments ≥ 1`, the builder produces exactly
`2·resolution + (segments+1)·(resolution+1)` vertices and
`3·(2·segments·resolution + 2·(resolution−2))` indices. -/
theorem cylinder_mesh_counts (sincos : ℚ → ℚ × ℚ) (tau : ℚ) (c : Cylinder)
    (hr : 0 < c.radius) (hh : 0 < c.height)
    (hres : 2 < c.resolution) (hseg : 0 < c.segments) :
    (buildCylinder sincos tau c).positions.length
        = 2 * c.resolution + (c.segments + 1) * (c.resolution + 1) ∧
      (buildCylinder sincos tau c).indices.length
        = 3 * (2 * c.segments * c.resolution + 2 * (c.resolution - 2)) := by
  constructor
  · simp only [buildCylinder, List.length_append, cylRingPositions_length,
      cylCapPositions_length]
    ring
  · simp only [buildCylinder, List.length_append, cylBarrelIndices_length,
      cylCapIndices_length]
    ring

/-- Witness for `cylinder_mesh_counts`: `Cylinder(radius=1, height=1,
resolution=4, segments=1)` yields 18 vertices and 36 indices. -/
theorem cylinder_mesh_counts_witness :
    (buildCylinder (fun _ => (0, 1)) 0
        { radius := 1, height := 1, resolution := 4, segments := 1 }).positions.length = 18 ∧
      (buildCylinder (fun _ => (0, 1)) 0
        { radius := 1, height := 1, resolution := 4, segments := 1 }).indices.length = 36 := by
  have h := cylinder_mesh_counts (fun _ => (0, 1)) 0
    { radius := 1, height := 1, resolution := 4, segments := 1 }
    (by norm_num) (by norm_num) (by norm_num) (by norm_num)
  norm_num at h
  exact h

/-- **C4 (amended)** — with debug assertions enabled, every precondition
violation makes the builder panic (fail fast) before producing a mesh. -/
theorem cylinder_debug_assert_panics (sincos : ℚ → ℚ × ℚ) (tau : ℚ)
    (c : Cylinder) (h : ¬ cylinderPrecond c) :
    cylinderToMesh true sincos tau c = none := by
  simp [cylinderToMesh, h]

/-- Witness for `cylinder_debug_assert_panics`: radius `0` violates
`radius > 0` and the debug build panics. -/
theorem cylinder_debug_assert_panics_witness :
    cylinderToMesh true (fun _ => (0, 1)) 0
      { radius := 0, height := 1, resolution := 4, segments := 1 } = none :=
  cylinder_debug_assert_panics (fun _ => (0, 1)) 0 _
    (by simp [cylinderPrecond])

/-- **C4 (counterexample)** — the claim "fails fast and fatally rather than
producing a mesh" does not hold of the code as compiled in release builds:
the guards are `debug_assert!`, so with debug assertions off a cylinder
with `radius = 0` (a violated precondition) still produces a mesh. -/
theorem cylinder_release_no_panic :
    (cylinderToMesh false (fun _ => (0, 1)) 0
      { radius := 0, height := 1, resolution := 4, segments := 1 }).isSome := by
  simp [cylinderToMesh]

/-! ## `src/ground.rs` — terrain chunk spawning (`spawn_ground`) -/

/-- `GROUND_LENGTH` from `ground.rs`. -/
def groundLength : ℚ := 60

/-- What one run of the `spawn_ground` system does, as a function of the
x-positions of the currently alive ground chunks. -/
inductive SpawnOutcome where
  | noSpawn
  | spawned (x : ℚ)
  | panic
deriving DecidableEq, Repr

/-- `spawn_ground` from `ground.rs`: if at least 2 chunks are alive, do
nothing; otherwise take the maximum x of the existing chunks (`max_by …
.unwrap()` — a panic when the query is empty) and spawn a chunk at
`max_x + GROUND_LENGTH`. -/
def spawnGround (chunkXs : List ℚ) : SpawnOutcome :=
  if 2 ≤ chunkXs.length then SpawnOutcome.noSpawn
  else
    match chunkXs.max? with
    | none => SpawnOutcome.panic
    | some maxX => SpawnOutcome.spawned (maxX + groundLength)

/-- **C5 (counterexample)** — with no chunks alive, `spawn_ground` does not
spawn a chunk at `0`: the `max_by … .unwrap()` on the empty query panics. -/
theorem spawn_ground_empty_panics :
    spawnGround [] = SpawnOutcome.panic ∧
      SpawnOutcome.panic ≠ SpawnOutcome.spawned 0 := by
  constructor
  · rfl
  · intro h
    cases h

/-- **C5 (amended)** — whenever fewer than 2 chunks are alive and at least
one exists (i.e. exactly one chunk, at any `x`), the spawner succeeds and
places the new chunk at `(max existing x) + chunk_length`.  The zero-chunk
case panics instead. -/
theorem spawn_ground_one_chunk (x : ℚ) :
    spawnGround [x] = SpawnOutcome.spawned (x + groundLength) := by
  rfl

/-! ## `src/util.rs` and the collision system of `src/main.rs` -/

/-- A 3-vector of (exact) `f32` components. -/
structure V3 where
  x : ℚ
  y : ℚ
  z : ℚ
deriving DecidableEq, Repr

/-- `bevy::render::primitives::Aabb`: a center and half-extents. -/
structure Aabb where
  center : V3
  halfExtents : V3
deriving DecidableEq, Repr

/-- `Aabb::min` — `center - half_extents`. -/
def Aabb.min (a : Aabb) : V3 :=
  ⟨a.center.x - a.halfExtents.x, a.center.y - a.halfExtents.y,
   a.center.z - a.halfExtents.z⟩

/-- `Aabb::max` — `center + half_extents`. -/
def Aabb.max (a : Aabb) : V3 :=
  ⟨a.center.x + a.halfExtents.x, a.center.y + a.halfExtents.y,
   a.center.z + a.halfExtents.z⟩

/-- `aabb.center += translation` as done in the `collision` system to move a
local AABB to world space. -/
def Aabb.translate (a : Aabb) (t : V3) : Aabb :=
  { a with center := ⟨a.center.x + t.x, a.center.y + t.y, a.center.z + t.z⟩ }

/-- `collide_aabb` from `util.rs`: strict overlap on all three axes. -/
def collideAabb (a b : Aabb) : Bool :=
  decide (b.min.x < a.max.x) && decide (a.min.x < b.max.x)
    && decide (b.min.y < a.max.y) && decide (a.min.y < b.max.y)
    && decide (b.min.z < a.max.z) && decide (a.min.z < b.max.z)

/-- A score-zone collider: its local AABB, its world translation, and the
`Used` marker component. -/
structure ScoreZone where
  aabb : Aabb
  translation : V3
  used : Bool
deriving DecidableEq, Repr

/-- The scoring loop of the `collision` system in `main.rs`: for each zone
not yet marked `Used` whose world AABB strictly overlaps the player's world
AABB, insert `Used` and add 2 to the score.  Zones are processed in query
order; marking is per-zone and the score accumulates. -/
def scoreTickAux (birb : Aabb) : List ScoreZone → ℕ → List ScoreZone × ℕ
  | [], score => ([], score)
  | z :: rest, score =>
    if !z.used && collideAabb (z.aabb.translate z.translation) birb then
      let p := scoreTickAux birb rest (score + 2)
      ({ z with used := true } :: p.1, p.2)
    else
      let p := scoreTickAux birb rest score
      (z :: p.1, p.2)

/-- One `collision`-system tick restricted to scoring: the player's local
AABB is recentered at its world translation, then all score zones are
tested. -/
def scoreTick (birbAabb : Aabb) (birbTranslation : V3)
    (zones : List ScoreZone) (score : ℕ) : List ScoreZone × ℕ :=
  scoreTickAux (birbAabb.translate birbTranslation) zones score

/-- `n` consecutive `collision` ticks with the player stationary. -/
def iterScoreTick (birbAabb : Aabb) (birbTranslation : V3) :
    ℕ → List ScoreZone × ℕ → List ScoreZone × ℕ
  | 0, p => p
  | n + 1, p => iterScoreTick birbAabb birbTranslation n
      (scoreTick birbAabb birbTranslation p.1 p.2)

/-- After one scoring pass, a second pass with the same player position
changes nothing: every zone that overlapped is now `Used`, and zones that
did not overlap still do not. -/
theorem scoreTickAux_idem (birb : Aabb) :
    ∀ (zones : List ScoreZone) (score s2 : ℕ),
      scoreTickAux birb (scoreTickAux birb zones score).1 s2
        = ((scoreTickAux birb zones score).1, s2) := by
  intro zones
  induction zones with
  | nil => intro score s2; rfl
  | cons z rest ih =>
    intro score s2
    by_cases h : (!z.used && collideAabb (z.aabb.translate z.translation) birb) = true
    · simp only [scoreTickAux, h, if_true]
      have hused : (!({ z with used := true } : ScoreZone).used
          && collideAabb (({ z with used := true } : ScoreZone).aabb.translate
            ({ z with used := true } : ScoreZone).translation) birb) = false := by
        simp
      simp only [scoreTickAux, hused, Bool.false_eq_true, if_false, ih]
    · simp only [scoreTickAux, h, Bool.false_eq_true, if_false, ih]

/-- The score increment of a single pass: 2 points for every zone that is
unused and strictly overlapping. -/
theorem scoreTickAux_score (birb : Aabb) :
    ∀ (zones : List ScoreZone) (score : ℕ),
      (scoreTickAux birb zones score).2 = score
        + 2 * (zones.countP fun z =>
            !z.used && collideAabb (z.aabb.translate z.translation) birb) := by
  intro zones
  induction zones with
  | nil => intro score; simp [scoreTickAux]
  | cons z rest ih =>
    intro score
    by_cases h : (!z.used && collideAabb (z.aabb.translate z.translation) birb) = true
    · simp only [scoreTickAux, h, if_true, ih, List.countP_cons, h, if_pos]
      ring
    · simp only [scoreTickAux, h, Bool.false_eq_true, if_false, ih,
        List.countP_cons]
      ring

/-- Iterating from a fixed point of the tick stays there. -/
theorem iterScoreTick_fixed (birbAabb : Aabb) (birbTranslation : V3)
    (p : List ScoreZone × ℕ)
    (hp : scoreTick birbAabb birbTranslation p.1 p.2 = p) :
    ∀ n, iterScoreTick birbAabb birbTranslation n p = p := by
  intro n
  induction n with
  | zero => rfl
  | succ n ih =>
    show iterScoreTick birbAabb birbTranslation n
      (scoreTick birbAabb birbTranslation p.1 p.2) = p
    rw [hp]
    exact ih

/-- **C6** — score at-most-once: with the player stationary, any positive
number of `collision` ticks has exactly the effect of the first tick — each
zone that is unused and overlapping on the first tick is marked `Used` and
adds its 2 points exactly once; a `Used` zone never increments the score
again on later ticks. -/
theorem score_at_most_once (birbAabb : Aabb) (birbTranslation : V3)
    (zones : List ScoreZone) (score : ℕ) (n : ℕ) :
    iterScoreTick birbAabb birbTranslation (n + 1) (zones, score)
        = scoreTick birbAabb birbTranslation zones score ∧
      (scoreTick birbAabb birbTranslation zones score).2 = score
        + 2 * (zones.countP fun z => !z.used
            && collideAabb (z.aabb.translate z.translation)
              (birbAabb.translate birbTranslation)) := by
  constructor
  · show iterScoreTick birbAabb birbTranslation n
      (scoreTick birbAabb birbTranslation zones score)
      = scoreTick birbAabb birbTranslation zones score
    exact iterScoreTick_fixed birbAabb birbTranslation _
      (by simp only [scoreTick, scoreTickAux_idem]) n
  · exact scoreTickAux_score _ zones score

/-! ## `obstacle_movement` from `src/main.rs` -/

/-- One tick of `obstacle_movement` for a single obstacle group:
`x -= dt·speed`; if the new position is `< -30` the group is despawned
(`none`). -/
def obstacleTick (dt speed x : ℚ) : Option ℚ :=
  let x' := x - dt * speed
  if x' < -30 then none else some x'

/-- The obstacle group spawned at `x = 38` (the spawn offset in
`spawn_obstacle`) after `k` ticks of `obstacle_movement`; `none` once it
has been despawned. -/
def obstacleRun (dt speed : ℚ) : ℕ → Option ℚ
  | 0 => some 38
  | k + 1 => (obstacleRun dt speed k).bind (obstacleTick dt speed)

/-- Closed form while alive: with `dt = 1`, `speed = 2`, after `k ≤ 34`
ticks the group is alive at `38 - 2k`. -/
theorem obstacleRun_closed : ∀ k : ℕ, k ≤ 34 →
    obstacleRun 1 2 k = some (38 - 2 * (k : ℚ)) := by
  intro k
  induction k with
  | zero => intro _; norm_num [obstacleRun]
  | succ k ih =>
    intro hk
    have hk' : k ≤ 34 := Nat.le_of_succ_le hk
    have hk33 : k ≤ 33 := by omega
    rw [obstacleRun, ih hk']
    show obstacleTick 1 2 (38 - 2 * (k : ℚ)) = some (38 - 2 * ((k + 1 : ℕ) : ℚ))
    have hcast : (k : ℚ) ≤ 33 := by exact_mod_cast hk33
    have hnot : ¬ (38 - 2 * (k : ℚ) - 1 * 2 < -30) := by
      push_neg
      linarith
    simp only [obstacleTick]
    rw [if_neg hnot]
    congr 1
    push_cast
    ring

/-- After 34 ticks the group sits at exactly `-30` and is still alive. -/
theorem obstacleRun_34 : obstacleRun 1 2 34 = some (-30) := by
  rw [obstacleRun_closed 34 (le_refl 34)]
  norm_num

/-- On tick 35 the position becomes `-32 < -30` and the group is despawned. -/
theorem obstacleRun_35 : obstacleRun 1 2 35 = none := by
  rw [obstacleRun, obstacleRun_34]
  show obstacleTick 1 2 (-30) = none
  simp only [obstacleTick]
  norm_num

/-- **C2 (counterexample)** — at tick `34 = ⌈(38−(−30))/(speed·dt)⌉` the
obstacle sits at exactly `-30`, which is *not* `< -30`, so it is **not**
destroyed on tick 34; it is destroyed on tick 35. -/
theorem obstacle_not_destroyed_at_34 :
    obstacleRun 1 2 34 = some (-30) ∧ obstacleRun 1 2 35 = none :=
  ⟨obstacleRun_34, obstacleRun_35⟩

/-- **C2 (amended)** — with `x₀ = 38`, `speed = 2`, `dt = 1`, the group is
destroyed exactly on the first tick where its position becomes strictly
less than `-30`, namely tick **35** (at tick 34 the position is exactly
`-30`): it is alive after every `k ≤ 34` ticks and despawned at tick 35. -/
theorem obstacle_destroyed_at_35 :
    (∀ k : ℕ, k ≤ 34 → (obstacleRun 1 2 k).isSome) ∧
      obstacleRun 1 2 35 = none := by
  constructor
  · intro k hk
    rw [obstacleRun_closed k hk]
    rfl
  · exact obstacleRun_35

/-- Witness for `obstacle_destroyed_at_35` at `k = 34`. -/
theorem obstacle_destroyed_at_35_witness :
    (obstacleRun 1 2 34).isSome ∧ obstacleRun 1 2 35 = none :=
  ⟨obstacle_destroyed_at_35.1 34 (by norm_num), obstacle_destroyed_at_35.2⟩

/-! ## `spawn_obstacle` from `src/main.rs` -/

/-- `GAP_SIZE` from `main.rs`. -/
def gapSize : ℚ := 2

/-- The geometry of one spawned obstacle group, as computed by
`spawn_obstacle` from the drawn `gap_start`: pipe heights, pipe and flange
centers, the score-zone box, and the parent x-position. -/
structure ObstacleGroup where
  bottomHeight : ℚ
  topHeight : ℚ
  bottomY : ℚ
  topY : ℚ
  bottomFlangeY : ℚ
  topFlangeY : ℚ
  zoneMinY : ℚ
  zoneMaxY : ℚ
  x : ℚ
deriving DecidableEq, Repr

/-- `spawn_obstacle`'s arithmetic for a drawn `gap_start` (flange height
`0.4`; the group parent is placed at `x = 38`). -/
def spawnObstacleGroup (gapStart : ℚ) : ObstacleGroup :=
  { bottomHeight := gapStart
    topHeight := 10 - gapStart - gapSize
    bottomY := gapStart / 2
    topY := gapStart + gapSize + (10 - gapStart - gapSize) / 2
    bottomFlangeY := gapStart - 0.4 / 2
    topFlangeY := gapStart + gapSize + 0.4 / 2
    zoneMinY := gapStart
    zoneMaxY := gapStart + gapSize
    x := 38 }

/-- **C7** — for every drawn gap center, the spawned group satisfies
`bottom_height + gap_size + top_height = 10` exactly. -/
theorem obstacle_heights_invariant (gapStart : ℚ) :
    (spawnObstacleGroup gapStart).bottomHeight + gapSize
      + (spawnObstacleGroup gapStart).topHeight = 10 := by
  simp only [spawnObstacleGroup, gapSize]
  ring

/-! ## The `Retry` transition: `retry_game` and `reset` from `src/main.rs` -/

/-- `enum AppState` from `main.rs` (the `Paused` state exists only behind
the debug-only `inspector` feature and is omitted). -/
inductive AppState where
  | Loading
  | StartScreen
  | Playing
  | EndScreen
deriving DecidableEq, Repr

/-- `enum Action` from `main.rs` (`NewWord(Entity)` carries an entity id). -/
inductive Action where
  | BadFlap
  | BirbUp
  | BirbDown
  | NewWord (entity : ℕ)
  | IncScore (amount : ℕ)
  | Start
  | Retry
deriving DecidableEq, Repr

/-- `struct Speed` from `main.rs`. -/
structure SpeedState where
  current : ℚ
  maxSpeed : ℚ
deriving DecidableEq, Repr

/-- `Speed::default()`: `current = 2`, `max = 4.4`. -/
def speedDefault : SpeedState := { current := 2, maxSpeed := 4.4 }

/-- The entity kinds the `reset` system queries
(`Or<(With<Obstacle>, With<Birb>, With<Rival>)>`). -/
inductive EntityKind where
  | obstacle
  | birb
  | rival
  | other
deriving DecidableEq, Repr

/-- The game-world state touched by the retry transition. -/
structure GameWorld where
  score : ℕ
  speed : SpeedState
  distanceToSpawn : ℚ
  obstacleSpacing : ℚ
  bag : BagState
  entities : List EntityKind
  appState : AppState
deriving DecidableEq

/-- The `reset` system (run on exiting `EndScreen`): re-insert the default
`Score`, `Speed`, `DistanceToSpawn` (default `0`) and `ObstacleSpacing`
(default `12`) resources and despawn every entity that is an obstacle, the
player bird, or the rival bird.  The `NextGapBag` resource is *not*
re-inserted. -/
def resetWorld (w : GameWorld) : GameWorld :=
  { w with
    score := 0
    speed := speedDefault
    distanceToSpawn := 0
    obstacleSpacing := 12
    entities := w.entities.filter fun e =>
      !(e == EntityKind.obstacle) && !(e == EntityKind.birb)
        && !(e == EntityKind.rival) }

/-- `retry_game` (run while in `EndScreen`) plus the state transition it
requests: on a `Retry` event, set the state to `StartScreen`, which runs
`reset` on exiting `EndScreen`. -/
def handleRetry (events : List Action) (w : GameWorld) : GameWorld :=
  if w.appState = AppState.EndScreen ∧ Action.Retry ∈ events then
    { resetWorld w with appState := AppState.StartScreen }
  else w

/-- **C8** — the Retry transition resets `Score` to 0, `Speed` to its
default, the spawn-distance counter to its default `0`, moves to
`StartScreen`, despawns every obstacle/player(/rival) entity — and leaves
the `GapSequencer` state (`NextGapBag`) completely unchanged. -/
theorem retry_resets_but_keeps_bag (events : List Action) (w : GameWorld)
    (hstate : w.appState = AppState.EndScreen)
    (hretry : Action.Retry ∈ events) :
    (handleRetry events w).score = 0 ∧
      (handleRetry events w).speed = speedDefault ∧
      (handleRetry events w).distanceToSpawn = 0 ∧
      (handleRetry events w).bag = w.bag ∧
      (handleRetry events w).appState = AppState.StartScreen ∧
      ∀ e ∈ (handleRetry events w).entities,
        e ≠ EntityKind.obstacle ∧ e ≠ EntityKind.birb ∧ e ≠ EntityKind.rival := by
  have hcond : (w.appState = AppState.EndScreen ∧ Action.Retry ∈ events) :=
    ⟨hstate, hretry⟩
  unfold handleRetry
  rw [if_pos hcond]
  refine ⟨rfl, rfl, rfl, rfl, rfl, ?_⟩
  intro e he
  simp only [resetWorld, List.mem_filter, Bool.and_eq_true, Bool.not_eq_true',
    beq_eq_false_iff_ne, ne_eq] at he
  exact ⟨he.2.1.1, he.2.1.2, he.2.2⟩

/-- Witness for `retry_resets_but_keeps_bag` at a concrete end-screen world
holding one obstacle, the player bird and a decorative entity. -/
theorem retry_resets_but_keeps_bag_witness :
    (handleRetry [Action.Retry]
      { score := 6, speed := { current := 3, maxSpeed := 4.4 },
        distanceToSpawn := 7, obstacleSpacing := 12,
        bag := { rangeStart := 1/2, rangeEnd := 47/10, previousValue := 3,
                 index := 4, contents := initialContents },
        entities := [EntityKind.obstacle, EntityKind.birb, EntityKind.other],
        appState := AppState.EndScreen }).score = 0 ∧
    (handleRetry [Action.Retry]
      { score := 6, speed := { current := 3, maxSpeed := 4.4 },
        distanceToSpawn := 7, obstacleSpacing := 12,
        bag := { rangeStart := 1/2, rangeEnd := 47/10, previousValue := 3,
                 index := 4, contents := initialContents },
        entities := [EntityKind.obstacle, EntityKind.birb, EntityKind.other],
        appState := AppState.EndScreen }).bag
      = { rangeStart := 1/2, rangeEnd := 47/10, previousValue := 3,
          index := 4, contents := initialContents } := by
  have h := retry_resets_but_keeps_bag [Action.Retry]
    { score := 6, speed := { current := 3, maxSpeed := 4.4 },
      distanceToSpawn := 7, obstacleSpacing := 12,
      bag := { rangeStart := 1/2, rangeEnd := 47/10, previousValue := 3,
               index := 4, contents := initialContents },
      entities := [EntityKind.obstacle, EntityKind.birb, EntityKind.other],
      appState := AppState.EndScreen }
    rfl (by simp)
  exact ⟨h.1, h.2.2.2.1⟩

end TypeyBirb
